import Mathlib

/-!
Verification of the luxury-hunter confidence-fusion and decision engine.

The definitions below are a shallow embedding of the JavaScript source:
* `findBestMatch`, `combineDetectionResults`, `detectBrand` from
  `src/brand-detectors.js` (class `BrandDetectors`);
* `calculateFeatureScore`, `getAuthenticityReasons`, `authenticateItem`
  from the `LuxuryMatcher` class.

Scores and weights are modelled as rationals (`ℚ`); the JavaScript numbers
involved are small decimal constants, and every claim is about exact
arithmetic relations between them.  Boolean decisions (`detected`,
`authentic`) are modelled as `Bool` via `decide`, mirroring the source's
comparison expressions.  JavaScript truthiness of a numeric field
(`if (x)`) is modelled as `x ≠ 0`.
-/

namespace LuxuryHunter

/-- One detection method's vote: the winning brand it reports together with
its confidence.  Mirrors the `{ method, brand, confidence }` objects returned
by `detectLogo` / `detectBrandColors` / `detectBrandPatterns`. -/
structure MethodResult where
  brand : String
  confidence : ℚ
deriving DecidableEq, Repr

/-- Result of `findBestMatch`: `{ brand, score }`. -/
structure BestMatch where
  brand : String
  score : ℚ
deriving DecidableEq, Repr

/-- The fusion engine's output `{ brand, confidence }` (the `breakdown`
field is just the three inputs echoed back and is not modelled). -/
structure FusionResult where
  brand : String
  confidence : ℚ
deriving DecidableEq, Repr

/-- The `weights` constant of `combineDetectionResults`
(`{ logo: 0.5, colors: 0.3, patterns: 0.2 }`).  Kept as a parameter so that
properties quantified over arbitrary weight configurations can be stated;
the source's constant is `defaultWeights`. -/
structure Weights where
  logo : ℚ
  colors : ℚ
  patterns : ℚ
deriving DecidableEq, Repr

/-- The source's hard-coded weight configuration. -/
def defaultWeights : Weights := ⟨1/2, 3/10, 1/5⟩

/-- The 12-brand candidate registry `this.supportedBrands`. -/
def supportedBrands : List String :=
  ["Louis Vuitton", "Gucci", "Chanel", "Hermès", "Prada", "Dior", "Fendi",
   "Bottega Veneta", "Saint Laurent", "Balenciaga", "Celine", "Loewe"]

/-- Loop body of `findBestMatch`: starting from the accumulator
`(bestBrand, bestScore)`, an entry replaces the current best exactly when
its score is strictly greater (`if (score > bestScore)`). -/
def findBestMatchAux (acc : BestMatch) : List (String × ℚ) → BestMatch
  | [] => acc
  | (brand, score) :: rest =>
      if acc.score < score then findBestMatchAux ⟨brand, score⟩ rest
      else findBestMatchAux acc rest

/-- `findBestMatch(resultsMap)`: scans the map in insertion order starting
from `bestBrand = 'Unknown'`, `bestScore = 0`.  The JavaScript `Map` is
modelled as an association list in its insertion order (at every call site
the map is inserted in registry order). -/
def findBestMatch (resultsMap : List (String × ℚ)) : BestMatch :=
  findBestMatchAux ⟨"Unknown", 0⟩ resultsMap

/-- The per-brand accumulation loop of `combineDetectionResults`:
`(totalScore, totalWeight)` after the three `if (result.brand === brand)`
updates. -/
def brandTotals (w : Weights) (lr cr pr : MethodResult) (brand : String) :
    ℚ × ℚ :=
  let t0 : ℚ × ℚ := (0, 0)
  let t1 := if lr.brand = brand
    then (t0.1 + lr.confidence * w.logo, t0.2 + w.logo) else t0
  let t2 := if cr.brand = brand
    then (t1.1 + cr.confidence * w.colors, t1.2 + w.colors) else t1
  let t3 := if pr.brand = brand
    then (t2.1 + pr.confidence * w.patterns, t2.2 + w.patterns) else t2
  t3

/-- The `brandScores` map built by `combineDetectionResults`: one entry per
registry brand with `totalWeight > 0`, holding `totalScore / totalWeight`;
brands with no positive total weight get no entry. -/
def brandScores (w : Weights) (registry : List String)
    (lr cr pr : MethodResult) : List (String × ℚ) :=
  registry.filterMap (fun brand =>
    let t := brandTotals w lr cr pr brand
    if 0 < t.2 then some (brand, t.1 / t.2) else none)

/-- `combineDetectionResults(logoResult, colorResult, patternResult)`:
builds `brandScores` over the registry and returns the best match. -/
def combineDetectionResults (w : Weights) (registry : List String)
    (lr cr pr : MethodResult) : FusionResult :=
  let best := findBestMatch (brandScores w registry lr cr pr)
  ⟨best.brand, best.score⟩

/-- The fields of `detectBrand`'s result that the decision contract is
about: `detected = confidence > 0.6` plus the fused brand/confidence. -/
structure DetectBrandResult where
  detected : Bool
  brand : String
  confidence : ℚ
deriving DecidableEq, Repr

/-- The decision step of `detectBrand`
(`detected: detectionResults.confidence > 0.6`). -/
def detectBrand (w : Weights) (registry : List String)
    (lr cr pr : MethodResult) : DetectBrandResult :=
  let d := combineDetectionResults w registry lr cr pr
  ⟨decide ((6 : ℚ)/10 < d.confidence), d.brand, d.confidence⟩

/-- Spec-side `score_sum` for one category: Σ vote.score × weight over
exactly the methods whose vote names this category. -/
def scoreSum (w : Weights) (lr cr pr : MethodResult) (brand : String) : ℚ :=
  (if lr.brand = brand then lr.confidence * w.logo else 0) +
  (if cr.brand = brand then cr.confidence * w.colors else 0) +
  (if pr.brand = brand then pr.confidence * w.patterns else 0)

/-- Spec-side `weight_sum` for one category: the sum of the weights of
exactly the methods whose vote names this category. -/
def weightSum (w : Weights) (lr cr pr : MethodResult) (brand : String) : ℚ :=
  (if lr.brand = brand then w.logo else 0) +
  (if cr.brand = brand then w.colors else 0) +
  (if pr.brand = brand then w.patterns else 0)

/-- `logoPresence` feature as returned by `detectLogo` of `LuxuryMatcher`
(the derived `sharpness` label is not used by any claim). -/
structure LogoPresence where
  present : Bool
  quality : ℚ
deriving DecidableEq, Repr

/-- `stitchingQuality` feature as returned by `analyzeStitching` (the
derived `quality` label and `evenness` flag are functions of
`consistency` and are not used by any claim). -/
structure StitchingQuality where
  consistency : ℚ
deriving DecidableEq, Repr

/-- `materialTexture` feature as returned by `analyzeMaterial`. -/
structure MaterialTexture where
  quality : String
deriving DecidableEq, Repr

/-- `craftsmanship` feature as returned by `analyzeCraftsmanship`. -/
structure Craftsmanship where
  overall : ℚ
  precision : Bool
deriving DecidableEq, Repr

/-- `hardwareQuality` feature as returned by `analyzeHardware`. -/
structure HardwareQuality where
  quality : String
deriving DecidableEq, Repr

/-- The feature record assembled by `extractFeatures` (the `serialNumber`
placeholder field is never consulted by score or reasons and is omitted). -/
structure Features where
  logoPresence : LogoPresence
  stitchingQuality : StitchingQuality
  materialTexture : MaterialTexture
  craftsmanship : Craftsmanship
  hardwareQuality : HardwareQuality
deriving DecidableEq, Repr

/-- `calculateFeatureScore(features)`: accumulates `(score, factors)` over
the five contributing-factor checks and returns `score / factors`, or `0.5`
when no factor contributed.  JavaScript truthiness of
`features.stitchingQuality?.consistency` is modelled as `≠ 0`. -/
def calculateFeatureScore (f : Features) : ℚ :=
  let a : ℚ × ℕ := (0, 0)
  let a := if f.logoPresence.present
    then (a.1 + f.logoPresence.quality * (2/10), a.2 + 1) else a
  let a := if f.stitchingQuality.consistency ≠ 0
    then (a.1 + f.stitchingQuality.consistency * (25/100), a.2 + 1) else a
  let a := if f.materialTexture.quality = "genuine"
    then (a.1 + 2/10, a.2 + 1) else a
  let a := if f.craftsmanship.precision
    then (a.1 + f.craftsmanship.overall * (2/10), a.2 + 1) else a
  let a := if f.hardwareQuality.quality = "premium"
    then (a.1 + 15/100, a.2 + 1) else a
  if 0 < a.2 then a.1 / (a.2 : ℚ) else 1/2

/-- `getAuthenticityReasons(features, score)`: the five fixed threshold
rules, evaluated in source order, each appending its reason string. -/
def getAuthenticityReasons (f : Features) (score : ℚ) : List String :=
  (if f.logoPresence.present ∧ 7/10 < f.logoPresence.quality
    then ["High-quality logo detected"] else []) ++
  (if 7/10 < f.stitchingQuality.consistency
    then ["Consistent, professional stitching"] else []) ++
  (if f.craftsmanship.precision
    then ["Precise craftsmanship and symmetry"] else []) ++
  (if f.hardwareQuality.quality = "premium"
    then ["Premium hardware quality"] else []) ++
  (if score < 1/2
    then ["Multiple authenticity concerns detected"] else [])

/-- `this.authenticityThreshold = 0.85`. -/
def authenticityThreshold : ℚ := 85/100

/-- The fields of `authenticateItem`'s result that the decision contract is
about: `authentic = overallScore >= this.authenticityThreshold`,
`confidence = overallScore = (featureScore + modelScore) / 2`, and the
reason list computed from the features and the overall score. -/
structure AuthResult where
  authentic : Bool
  confidence : ℚ
  reasons : List String
deriving DecidableEq, Repr

/-- The decision core of `authenticateItem`: `modelScore` is the external
classifier prediction (`confidence[0]`), `featureScore` comes from
`calculateFeatureScore`. -/
def authenticateItem (features : Features) (modelScore : ℚ) : AuthResult :=
  let featureScore := calculateFeatureScore features
  let overallScore := (featureScore + modelScore) / 2
  ⟨decide (authenticityThreshold ≤ overallScore), overallScore,
   getAuthenticityReasons features overallScore⟩

/-- A feature record in which no contributing-factor check fires. -/
def absentFeatures : Features :=
  ⟨⟨false, 0⟩, ⟨0⟩, ⟨"unknown"⟩, ⟨0, false⟩, ⟨"unknown"⟩⟩

theorem brandTotals_eq (w : Weights) (lr cr pr : MethodResult)
    (brand : String) :
    brandTotals w lr cr pr brand =
      (scoreSum w lr cr pr brand, weightSum w lr cr pr brand) := by
  unfold brandTotals scoreSum weightSum
  split_ifs <;> simp

theorem brandScores_mem_of_pos (w : Weights) (registry : List String)
    (lr cr pr : MethodResult) (brand : String) (hmem : brand ∈ registry)
    (hpos : 0 < weightSum w lr cr pr brand) :
    (brand, scoreSum w lr cr pr brand / weightSum w lr cr pr brand) ∈
      brandScores w registry lr cr pr := by
  unfold brandScores
  rw [List.mem_filterMap]
  refine ⟨brand, hmem, ?_⟩
  simp only [brandTotals_eq]
  simp [hpos]

theorem brandScores_not_mem_of_zero (w : Weights) (registry : List String)
    (lr cr pr : MethodResult) (brand : String)
    (hz : weightSum w lr cr pr brand = 0) (q : ℚ) :
    (brand, q) ∉ brandScores w registry lr cr pr := by
  unfold brandScores
  rw [List.mem_filterMap]
  rintro ⟨b, _, hb⟩
  simp only [brandTotals_eq] at hb
  by_cases h : 0 < weightSum w lr cr pr b
  · rw [if_pos h, Option.some.injEq, Prod.mk.injEq] at hb
    exact absurd hz (hb.1 ▸ ne_of_gt h)
  · rw [if_neg h] at hb
    exact Option.noConfusion hb

/-- **C1.** Per-category aggregation of the fusion engine: a registry
category with positive `weight_sum` receives the aggregated score
`score_sum / weight_sum` (summed over exactly the methods that voted for
it), and a category with `weight_sum = 0` receives no aggregated score;
moreover, in the concrete scenario with registry [LV, Gucci, Chanel] and
votes logo→(LV,0.9), colors→(Gucci,0.4), patterns→(LV,0.2), LV's
aggregated score is (0.9·0.5 + 0.2·0.2)/(0.5 + 0.2), Gucci's is 0.4,
Chanel is excluded, and LV wins the fusion. -/
theorem fusion_aggregates_per_category :
    (∀ (w : Weights) (registry : List String) (lr cr pr : MethodResult)
        (brand : String), brand ∈ registry →
      (0 < weightSum w lr cr pr brand →
        (brand, scoreSum w lr cr pr brand / weightSum w lr cr pr brand) ∈
          brandScores w registry lr cr pr) ∧
      (weightSum w lr cr pr brand = 0 → ∀ q : ℚ,
        (brand, q) ∉ brandScores w registry lr cr pr)) ∧
    brandScores defaultWeights ["Louis Vuitton", "Gucci", "Chanel"]
        ⟨"Louis Vuitton", 9/10⟩ ⟨"Gucci", 4/10⟩ ⟨"Louis Vuitton", 2/10⟩ =
      [("Louis Vuitton", (9/10 * (1/2) + 2/10 * (1/5)) / (1/2 + 1/5)),
       ("Gucci", 4/10)] ∧
    combineDetectionResults defaultWeights ["Louis Vuitton", "Gucci", "Chanel"]
        ⟨"Louis Vuitton", 9/10⟩ ⟨"Gucci", 4/10⟩ ⟨"Louis Vuitton", 2/10⟩ =
      ⟨"Louis Vuitton", (9/10 * (1/2) + 2/10 * (1/5)) / (1/2 + 1/5)⟩ := by
  refine ⟨fun w registry lr cr pr brand hmem =>
    ⟨brandScores_mem_of_pos w registry lr cr pr brand hmem,
     fun hz => brandScores_not_mem_of_zero w registry lr cr pr brand hz⟩,
    ?_, ?_⟩
  · simp only [brandScores, brandTotals, defaultWeights, List.filterMap_cons,
      List.filterMap_nil, String.reduceEq, reduceIte]
    norm_num
  · simp only [combineDetectionResults, brandScores, brandTotals,
      defaultWeights, findBestMatch, List.filterMap_cons, List.filterMap_nil,
      String.reduceEq, reduceIte]
    norm_num [findBestMatchAux]

/-- Witness for C1 at a concrete instance: in the scenario registry, LV has
positive weight sum and its aggregated entry is present in the score map. -/
theorem fusion_aggregates_per_category_witness :
    ("Louis Vuitton",
      scoreSum defaultWeights ⟨"Louis Vuitton", 9/10⟩ ⟨"Gucci", 4/10⟩
          ⟨"Louis Vuitton", 2/10⟩ "Louis Vuitton" /
        weightSum defaultWeights ⟨"Louis Vuitton", 9/10⟩ ⟨"Gucci", 4/10⟩
          ⟨"Louis Vuitton", 2/10⟩ "Louis Vuitton") ∈
      brandScores defaultWeights ["Louis Vuitton", "Gucci", "Chanel"]
        ⟨"Louis Vuitton", 9/10⟩ ⟨"Gucci", 4/10⟩ ⟨"Louis Vuitton", 2/10⟩ :=
  ((fusion_aggregates_per_category.1 defaultWeights
      ["Louis Vuitton", "Gucci", "Chanel"]
      ⟨"Louis Vuitton", 9/10⟩ ⟨"Gucci", 4/10⟩ ⟨"Louis Vuitton", 2/10⟩
      "Louis Vuitton" (by decide)).1
    (by simp only [weightSum, defaultWeights, String.reduceEq, reduceIte]
        norm_num))

theorem findBestMatchAux_append (acc : BestMatch)
    (l1 l2 : List (String × ℚ)) :
    findBestMatchAux acc (l1 ++ l2) =
      findBestMatchAux (findBestMatchAux acc l1) l2 := by
  induction l1 generalizing acc with
  | nil => rfl
  | cons x rest ih =>
      obtain ⟨b, s⟩ := x
      by_cases h : acc.score < s
      · simp only [List.cons_append, findBestMatchAux, if_pos h]
        exact ih ⟨b, s⟩
      · simp only [List.cons_append, findBestMatchAux, if_neg h]
        exact ih acc

theorem findBestMatchAux_of_all_le (acc : BestMatch)
    (l : List (String × ℚ)) (h : ∀ p ∈ l, p.2 ≤ acc.score) :
    findBestMatchAux acc l = acc := by
  induction l with
  | nil => rfl
  | cons x rest ih =>
      obtain ⟨b, s⟩ := x
      have hs : s ≤ acc.score := h (b, s) (List.mem_cons_self _ _)
      simp only [findBestMatchAux, if_neg (not_lt.mpr hs)]
      exact ih (fun p hp => h p (List.mem_cons_of_mem _ hp))

theorem findBestMatchAux_score_lt (s : ℚ) (acc : BestMatch)
    (l : List (String × ℚ)) (hacc : acc.score < s)
    (h : ∀ p ∈ l, p.2 < s) :
    (findBestMatchAux acc l).score < s := by
  induction l generalizing acc with
  | nil => exact hacc
  | cons x rest ih =>
      obtain ⟨b, sc⟩ := x
      by_cases hlt : acc.score < sc
      · simp only [findBestMatchAux, if_pos hlt]
        exact ih ⟨b, sc⟩ (h (b, sc) (List.mem_cons_self _ _))
          (fun p hp => h p (List.mem_cons_of_mem _ hp))
      · simp only [findBestMatchAux, if_neg hlt]
        exact ih acc hacc (fun p hp => h p (List.mem_cons_of_mem _ hp))

/-- **C4.** Tie-break determinism of winner selection (`findBestMatch`,
shared by the per-method rankers and the fusion engine): if a positive
score `s` at some position is strictly greater than every score before it
and at least as great as every score after it, that position's category
wins — i.e. on exact ties the candidate encountered first in registry
order wins, and only a strictly greater score displaces the current
best. -/
theorem findBestMatch_first_of_ties (pre post : List (String × ℚ))
    (b : String) (s : ℚ) (hpos : 0 < s)
    (hpre : ∀ p ∈ pre, p.2 < s) (hpost : ∀ p ∈ post, p.2 ≤ s) :
    findBestMatch (pre ++ (b, s) :: post) = ⟨b, s⟩ := by
  unfold findBestMatch
  rw [findBestMatchAux_append]
  have hacc : (findBestMatchAux ⟨"Unknown", 0⟩ pre).score < s :=
    findBestMatchAux_score_lt s ⟨"Unknown", 0⟩ pre hpos hpre
  simp only [findBestMatchAux, if_pos hacc]
  exact findBestMatchAux_of_all_le ⟨b, s⟩ post hpost

/-- Witness for C4: with the score map
[(LV, 0.5), (Gucci, 0.7), (Chanel, 0.7)], Gucci and Chanel tie at the
greatest score and Gucci, first in registry order, wins. -/
theorem findBestMatch_first_of_ties_witness :
    findBestMatch
        [("Louis Vuitton", 1/2), ("Gucci", 7/10), ("Chanel", 7/10)] =
      ⟨"Gucci", 7/10⟩ :=
  findBestMatch_first_of_ties [("Louis Vuitton", 1/2)] [("Chanel", 7/10)]
    "Gucci" (7/10) (by norm_num)
    (by intro p hp
        rw [List.mem_singleton] at hp
        rw [hp]
        norm_num)
    (by intro p hp
        rw [List.mem_singleton] at hp
        rw [hp])

theorem brandScores_nil_of_weightSum_nonpos (w : Weights)
    (registry : List String) (lr cr pr : MethodResult)
    (h : ∀ b ∈ registry, ¬ 0 < weightSum w lr cr pr b) :
    brandScores w registry lr cr pr = [] := by
  unfold brandScores
  rw [List.filterMap_eq_nil_iff]
  intro b hb
  simp only [brandTotals_eq]
  rw [if_neg (h b hb)]

theorem combine_unknown_of_no_scores (w : Weights) (registry : List String)
    (lr cr pr : MethodResult)
    (h : ∀ b ∈ registry, ¬ 0 < weightSum w lr cr pr b) :
    combineDetectionResults w registry lr cr pr = ⟨"Unknown", 0⟩ ∧
    (detectBrand w registry lr cr pr).detected = false := by
  have hnil := brandScores_nil_of_weightSum_nonpos w registry lr cr pr h
  constructor
  · simp only [combineDetectionResults, hnil]
    rfl
  · simp only [detectBrand, combineDetectionResults, hnil]
    show decide ((6 : ℚ)/10 < (0 : ℚ)) = false
    exact decide_eq_false (by norm_num)

/-- **C3.** Absence of evidence is a valid outcome, not a failure: if every
method votes the "Unknown" sentinel (which is not a registry category), or
every configured method weight is 0, fusion returns (Unknown, confidence 0)
and the decision outcome is false.  (The embedded functions are total, so
no error can be raised on these inputs.) -/
theorem fusion_evidence_absent :
    (∀ (w : Weights) (registry : List String) (lr cr pr : MethodResult),
      "Unknown" ∉ registry →
      lr.brand = "Unknown" → cr.brand = "Unknown" → pr.brand = "Unknown" →
      combineDetectionResults w registry lr cr pr = ⟨"Unknown", 0⟩ ∧
      (detectBrand w registry lr cr pr).detected = false) ∧
    (∀ (w : Weights) (registry : List String) (lr cr pr : MethodResult),
      w.logo = 0 → w.colors = 0 → w.patterns = 0 →
      combineDetectionResults w registry lr cr pr = ⟨"Unknown", 0⟩ ∧
      (detectBrand w registry lr cr pr).detected = false) := by
  constructor
  · intro w registry lr cr pr hun hl hc hp
    refine combine_unknown_of_no_scores w registry lr cr pr ?_
    intro b hb
    have hbne : b ≠ "Unknown" := ne_of_mem_of_not_mem hb hun
    have h1 : ¬ (lr.brand = b) := by rw [hl]; exact fun h => hbne h.symm
    have h2 : ¬ (cr.brand = b) := by rw [hc]; exact fun h => hbne h.symm
    have h3 : ¬ (pr.brand = b) := by rw [hp]; exact fun h => hbne h.symm
    simp [weightSum, h1, h2, h3]
  · intro w registry lr cr pr hw1 hw2 hw3
    refine combine_unknown_of_no_scores w registry lr cr pr ?_
    intro b _
    unfold weightSum
    split_ifs <;> simp [hw1, hw2, hw3]

/-- Witness for C3: all three methods vote Unknown over the full 12-brand
registry; fusion yields (Unknown, 0) and the decision is false. -/
theorem fusion_evidence_absent_witness :
    combineDetectionResults defaultWeights supportedBrands
        ⟨"Unknown", 0⟩ ⟨"Unknown", 0⟩ ⟨"Unknown", 0⟩ = ⟨"Unknown", 0⟩ ∧
    (detectBrand defaultWeights supportedBrands
        ⟨"Unknown", 0⟩ ⟨"Unknown", 0⟩ ⟨"Unknown", 0⟩).detected = false :=
  fusion_evidence_absent.1 defaultWeights supportedBrands
    ⟨"Unknown", 0⟩ ⟨"Unknown", 0⟩ ⟨"Unknown", 0⟩ (by decide) rfl rfl rfl

theorem weightSum_nonneg (w : Weights) (lr cr pr : MethodResult)
    (brand : String) (hw1 : 0 ≤ w.logo) (hw2 : 0 ≤ w.colors)
    (hw3 : 0 ≤ w.patterns) : 0 ≤ weightSum w lr cr pr brand := by
  unfold weightSum
  split_ifs <;> linarith

theorem scoreSum_nonneg (w : Weights) (lr cr pr : MethodResult)
    (brand : String) (hw1 : 0 ≤ w.logo) (hw2 : 0 ≤ w.colors)
    (hw3 : 0 ≤ w.patterns) (hc1 : 0 ≤ lr.confidence)
    (hc2 : 0 ≤ cr.confidence) (hc3 : 0 ≤ pr.confidence) :
    0 ≤ scoreSum w lr cr pr brand := by
  have m1 : 0 ≤ lr.confidence * w.logo := mul_nonneg hc1 hw1
  have m2 : 0 ≤ cr.confidence * w.colors := mul_nonneg hc2 hw2
  have m3 : 0 ≤ pr.confidence * w.patterns := mul_nonneg hc3 hw3
  unfold scoreSum
  split_ifs <;> linarith

theorem scoreSum_le_weightSum (w : Weights) (lr cr pr : MethodResult)
    (brand : String) (hw1 : 0 ≤ w.logo) (hw2 : 0 ≤ w.colors)
    (hw3 : 0 ≤ w.patterns) (hc1 : lr.confidence ≤ 1)
    (hc2 : cr.confidence ≤ 1) (hc3 : pr.confidence ≤ 1) :
    scoreSum w lr cr pr brand ≤ weightSum w lr cr pr brand := by
  have m1 : lr.confidence * w.logo ≤ w.logo := mul_le_of_le_one_left hw1 hc1
  have m2 : cr.confidence * w.colors ≤ w.colors :=
    mul_le_of_le_one_left hw2 hc2
  have m3 : pr.confidence * w.patterns ≤ w.patterns :=
    mul_le_of_le_one_left hw3 hc3
  unfold scoreSum weightSum
  split_ifs <;> linarith

theorem findBestMatchAux_score_bounds (l : List (String × ℚ))
    (acc : BestMatch) (h0 : 0 ≤ acc.score) (h1 : acc.score ≤ 1)
    (hl : ∀ p ∈ l, p.2 ≤ 1) :
    0 ≤ (findBestMatchAux acc l).score ∧
      (findBestMatchAux acc l).score ≤ 1 := by
  induction l generalizing acc with
  | nil => exact ⟨h0, h1⟩
  | cons x rest ih =>
      obtain ⟨b, s⟩ := x
      by_cases hlt : acc.score < s
      · simp only [findBestMatchAux, if_pos hlt]
        exact ih ⟨b, s⟩ (le_of_lt (lt_of_le_of_lt h0 hlt))
          (hl (b, s) (List.mem_cons_self _ _))
          (fun p hp => hl p (List.mem_cons_of_mem _ hp))
      · simp only [findBestMatchAux, if_neg hlt]
        exact ih acc h0 h1 (fun p hp => hl p (List.mem_cons_of_mem _ hp))

/-- **C6.** Weighted-average bound: with all method confidences in [0,1]
and non-negative weights, every aggregated per-category score lies in
[0,1], and so does the winning confidence returned by the fusion
engine. -/
theorem fusion_scores_in_unit_interval (w : Weights)
    (registry : List String) (lr cr pr : MethodResult)
    (hw1 : 0 ≤ w.logo) (hw2 : 0 ≤ w.colors) (hw3 : 0 ≤ w.patterns)
    (hc1 : 0 ≤ lr.confidence) (hc1u : lr.confidence ≤ 1)
    (hc2 : 0 ≤ cr.confidence) (hc2u : cr.confidence ≤ 1)
    (hc3 : 0 ≤ pr.confidence) (hc3u : pr.confidence ≤ 1) :
    (∀ p ∈ brandScores w registry lr cr pr, 0 ≤ p.2 ∧ p.2 ≤ 1) ∧
    0 ≤ (combineDetectionResults w registry lr cr pr).confidence ∧
    (combineDetectionResults w registry lr cr pr).confidence ≤ 1 := by
  have hmem : ∀ p ∈ brandScores w registry lr cr pr, 0 ≤ p.2 ∧ p.2 ≤ 1 := by
    intro p hp
    unfold brandScores at hp
    rw [List.mem_filterMap] at hp
    obtain ⟨b, _, hfb⟩ := hp
    simp only [brandTotals_eq] at hfb
    by_cases h : 0 < weightSum w lr cr pr b
    · rw [if_pos h, Option.some.injEq] at hfb
      rw [← hfb]
      constructor
      · exact div_nonneg
          (scoreSum_nonneg w lr cr pr b hw1 hw2 hw3 hc1 hc2 hc3)
          (le_of_lt h)
      · exact (div_le_one h).mpr
          (scoreSum_le_weightSum w lr cr pr b hw1 hw2 hw3 hc1u hc2u hc3u)
    · rw [if_neg h] at hfb
      exact absurd hfb (fun hx => Option.noConfusion hx)
  refine ⟨hmem, ?_⟩
  have := findBestMatchAux_score_bounds (brandScores w registry lr cr pr)
    ⟨"Unknown", 0⟩ (le_refl 0) (by norm_num)
    (fun p hp => (hmem p hp).2)
  exact this

/-- Witness for C6 at the Scenario A inputs over the full registry. -/
theorem fusion_scores_in_unit_interval_witness :
    0 ≤ (combineDetectionResults defaultWeights supportedBrands
        ⟨"Louis Vuitton", 9/10⟩ ⟨"Gucci", 4/10⟩
        ⟨"Louis Vuitton", 2/10⟩).confidence ∧
    (combineDetectionResults defaultWeights supportedBrands
        ⟨"Louis Vuitton", 9/10⟩ ⟨"Gucci", 4/10⟩
        ⟨"Louis Vuitton", 2/10⟩).confidence ≤ 1 :=
  (fusion_scores_in_unit_interval defaultWeights supportedBrands
    ⟨"Louis Vuitton", 9/10⟩ ⟨"Gucci", 4/10⟩ ⟨"Louis Vuitton", 2/10⟩
    (by norm_num [defaultWeights]) (by norm_num [defaultWeights])
    (by norm_num [defaultWeights]) (by norm_num) (by norm_num)
    (by norm_num) (by norm_num) (by norm_num) (by norm_num)).2

/-- **C5.** Renormalization identity: if exactly one method votes for a
registry category `brand` with positive weight, that category's aggregated
score is exactly the voting method's confidence (stated for each of the
three methods of the engine). -/
theorem single_vote_aggregates_exactly (w : Weights)
    (registry : List String) (lr cr pr : MethodResult) (brand : String)
    (hmem : brand ∈ registry) :
    (lr.brand = brand → cr.brand ≠ brand → pr.brand ≠ brand →
      0 < w.logo →
      (brand, lr.confidence) ∈ brandScores w registry lr cr pr) ∧
    (lr.brand ≠ brand → cr.brand = brand → pr.brand ≠ brand →
      0 < w.colors →
      (brand, cr.confidence) ∈ brandScores w registry lr cr pr) ∧
    (lr.brand ≠ brand → cr.brand ≠ brand → pr.brand = brand →
      0 < w.patterns →
      (brand, pr.confidence) ∈ brandScores w registry lr cr pr) := by
  refine ⟨?_, ?_, ?_⟩
  · intro h1 h2 h3 hw
    have hws : weightSum w lr cr pr brand = w.logo := by
      simp [weightSum, h1, h2, h3]
    have hss : scoreSum w lr cr pr brand = lr.confidence * w.logo := by
      simp [scoreSum, h1, h2, h3]
    have hm := brandScores_mem_of_pos w registry lr cr pr brand hmem
      (hws ▸ hw)
    rw [hss, hws, mul_div_cancel_right₀ _ (ne_of_gt hw)] at hm
    exact hm
  · intro h1 h2 h3 hw
    have hws : weightSum w lr cr pr brand = w.colors := by
      simp [weightSum, h1, h2, h3]
    have hss : scoreSum w lr cr pr brand = cr.confidence * w.colors := by
      simp [scoreSum, h1, h2, h3]
    have hm := brandScores_mem_of_pos w registry lr cr pr brand hmem
      (hws ▸ hw)
    rw [hss, hws, mul_div_cancel_right₀ _ (ne_of_gt hw)] at hm
    exact hm
  · intro h1 h2 h3 hw
    have hws : weightSum w lr cr pr brand = w.patterns := by
      simp [weightSum, h1, h2, h3]
    have hss : scoreSum w lr cr pr brand = pr.confidence * w.patterns := by
      simp [scoreSum, h1, h2, h3]
    have hm := brandScores_mem_of_pos w registry lr cr pr brand hmem
      (hws ▸ hw)
    rw [hss, hws, mul_div_cancel_right₀ _ (ne_of_gt hw)] at hm
    exact hm

/-- Witness for C5: only the colors method votes Gucci (score 0.4, weight
0.3); Gucci's aggregated score is exactly 0.4. -/
theorem single_vote_aggregates_exactly_witness :
    ("Gucci", (4 : ℚ)/10) ∈ brandScores defaultWeights supportedBrands
      ⟨"Louis Vuitton", 9/10⟩ ⟨"Gucci", 4/10⟩ ⟨"Chanel", 2/10⟩ :=
  (single_vote_aggregates_exactly defaultWeights supportedBrands
      ⟨"Louis Vuitton", 9/10⟩ ⟨"Gucci", 4/10⟩ ⟨"Chanel", 2/10⟩ "Gucci"
      (by decide)).2.1 (by decide) rfl (by decide)
    (by norm_num [defaultWeights])

/-- **C8.** The fusion function is deterministic: identical inputs (same
weights, same registry, same three method votes) yield an identical
FusionResult — same winning brand and same confidence value.  (The
embedded `combineDetectionResults` is a pure function of its
arguments.) -/
theorem fuse_deterministic (w w' : Weights) (registry registry' : List String)
    (lr lr' cr cr' pr pr' : MethodResult) (hw : w = w')
    (hreg : registry = registry') (hl : lr = lr') (hc : cr = cr')
    (hp : pr = pr') :
    combineDetectionResults w registry lr cr pr =
      combineDetectionResults w' registry' lr' cr' pr' ∧
    (combineDetectionResults w registry lr cr pr).brand =
      (combineDetectionResults w' registry' lr' cr' pr').brand ∧
    (combineDetectionResults w registry lr cr pr).confidence =
      (combineDetectionResults w' registry' lr' cr' pr').confidence := by
  subst hw hreg hl hc hp
  exact ⟨rfl, rfl, rfl⟩

/-- Witness for C8 at the Scenario A inputs. -/
theorem fuse_deterministic_witness :
    combineDetectionResults defaultWeights supportedBrands
        ⟨"Louis Vuitton", 9/10⟩ ⟨"Gucci", 4/10⟩ ⟨"Louis Vuitton", 2/10⟩ =
      combineDetectionResults defaultWeights supportedBrands
        ⟨"Louis Vuitton", 9/10⟩ ⟨"Gucci", 4/10⟩ ⟨"Louis Vuitton", 2/10⟩ :=
  (fuse_deterministic defaultWeights defaultWeights supportedBrands
    supportedBrands ⟨"Louis Vuitton", 9/10⟩ ⟨"Louis Vuitton", 9/10⟩
    ⟨"Gucci", 4/10⟩ ⟨"Gucci", 4/10⟩ ⟨"Louis Vuitton", 2/10⟩
    ⟨"Louis Vuitton", 2/10⟩ rfl rfl rfl rfl rfl).1

/-- **C2 counterexample.** The claim says both decisions use strict
greater-than, with outcome false at exact threshold equality.  The
authenticity decision in the source uses `>=`: with the no-evidence
feature record (feature score 0.5) and model score 1.2, the overall score
is exactly the 0.85 threshold and `authentic` is `true`, refuting the
claim. -/
theorem authenticity_equality_yields_true :
    (authenticateItem absentFeatures (6/5)).confidence =
      authenticityThreshold ∧
    (authenticateItem absentFeatures (6/5)).authentic = true := by
  have hfs : calculateFeatureScore absentFeatures = 1/2 := by
    simp [calculateFeatureScore, absentFeatures, String.reduceEq]
  constructor
  · simp only [authenticateItem, hfs, authenticityThreshold]
    norm_num
  · simp only [authenticateItem, hfs]
    rw [decide_eq_true_eq]
    norm_num [authenticityThreshold]

/-- **C2 amended.** The brand-detection decision is strict
(`detected ⟺ confidence > 0.6`, so false at exact equality), while the
authenticity decision is inclusive
(`authentic ⟺ overall score ≥ 0.85`, so true at exact equality). -/
theorem decision_threshold_semantics :
    (∀ (w : Weights) (registry : List String) (lr cr pr : MethodResult),
      (detectBrand w registry lr cr pr).detected = true ↔
        (6 : ℚ)/10 <
          (combineDetectionResults w registry lr cr pr).confidence) ∧
    (∀ (f : Features) (ms : ℚ),
      (authenticateItem f ms).authentic = true ↔
        authenticityThreshold ≤ (authenticateItem f ms).confidence) := by
  constructor
  · intro w registry lr cr pr
    simp [detectBrand]
  · intro f ms
    simp [authenticateItem]

/-- **C7 counterexample.** The claim says the engine fails with
`ConfigurationError` on an empty candidate registry.  The source has no
such validation: on an empty registry `combineDetectionResults` completes
normally and returns (Unknown, 0). -/
theorem empty_registry_returns_unknown :
    combineDetectionResults defaultWeights []
        ⟨"Louis Vuitton", 9/10⟩ ⟨"Gucci", 4/10⟩ ⟨"Chanel", 2/10⟩ =
      ⟨"Unknown", 0⟩ := rfl

/-- **C7 amended.** The engine performs no configuration validation and
never raises any error: on an empty registry it returns (Unknown, 0) with
outcome false, and its weight configuration is the fixed non-negative
constant map {logo: 0.5, colors: 0.3, patterns: 0.2}, so a negative weight
or a weight naming an unknown method cannot arise. -/
theorem no_configuration_validation :
    (∀ lr cr pr : MethodResult,
      combineDetectionResults defaultWeights [] lr cr pr =
        ⟨"Unknown", 0⟩ ∧
      (detectBrand defaultWeights [] lr cr pr).detected = false) ∧
    defaultWeights = ⟨1/2, 3/10, 1/5⟩ ∧
    0 ≤ defaultWeights.logo ∧ 0 ≤ defaultWeights.colors ∧
    0 ≤ defaultWeights.patterns := by
  refine ⟨fun lr cr pr => ⟨rfl, ?_⟩, rfl, ?_, ?_, ?_⟩
  · show decide ((6 : ℚ)/10 < (0 : ℚ)) = false
    exact decide_eq_false (by norm_num)
  · norm_num [defaultWeights]
  · norm_num [defaultWeights]
  · norm_num [defaultWeights]

/-- **C9.** The reason list is a deterministic function of the feature
record and the already-computed overall score, produced by fixed threshold
rules in fixed order; in particular the "Consistent, professional
stitching" reason appears exactly when the stitching-consistency feature
exceeds 0.7. -/
theorem reasons_deterministic_and_stitching_rule :
    (∀ (f g : Features) (s t : ℚ), f = g → s = t →
      getAuthenticityReasons f s = getAuthenticityReasons g t) ∧
    (∀ (f : Features) (s : ℚ),
      "Consistent, professional stitching" ∈ getAuthenticityReasons f s ↔
        (7 : ℚ)/10 < f.stitchingQuality.consistency) := by
  constructor
  · rintro f g s t rfl rfl
    rfl
  · intro f s
    by_cases hc : (7 : ℚ)/10 < f.stitchingQuality.consistency
    · simp [getAuthenticityReasons, hc]
    · simp only [getAuthenticityReasons, if_neg hc, List.nil_append]
      split_ifs <;> simp [hc, String.reduceEq]

/-- Witness for C9: at the no-evidence feature record with score 0.5, the
reason list is reproduced identically. -/
theorem reasons_deterministic_witness :
    getAuthenticityReasons absentFeatures (1/2) =
      getAuthenticityReasons absentFeatures (1/2) :=
  reasons_deterministic_and_stitching_rule.1 absentFeatures absentFeatures
    (1/2) (1/2) rfl rfl

/-- **C10.** When no feature qualifies as a contributing factor (logo not
present, stitching consistency not positive, material not genuine, no
craftsmanship precision, hardware not premium), `calculateFeatureScore`
returns exactly 0.5. -/
theorem featureScore_defaults_to_half (f : Features)
    (h1 : f.logoPresence.present = false)
    (h2 : ¬ 0 < f.stitchingQuality.consistency)
    (h2n : 0 ≤ f.stitchingQuality.consistency)
    (h3 : f.materialTexture.quality ≠ "genuine")
    (h4 : f.craftsmanship.precision = false)
    (h5 : f.hardwareQuality.quality ≠ "premium") :
    calculateFeatureScore f = 1/2 := by
  have hz : f.stitchingQuality.consistency = 0 :=
    le_antisymm (not_lt.mp h2) h2n
  simp [calculateFeatureScore, h1, hz, h3, h4, h5]

/-- Witness for C10 at the concrete no-evidence feature record. -/
theorem featureScore_defaults_to_half_witness :
    calculateFeatureScore absentFeatures = 1/2 :=
  featureScore_defaults_to_half absentFeatures rfl
    (by norm_num [absentFeatures]) (by norm_num [absentFeatures])
    (by decide) rfl (by decide)

end LuxuryHunter
